import Mathlib

/-!
Verification of the order-book state-synchronization core of the
`okx_connector` repository against its specification.

The development shallowly embeds the Rust sources:

* `src/models/orderbook.rs` — the `Orderbook` model with `from_snapshot`,
  `apply_update` and the shared `sort_order_book` sort/validate step;
* `src/client/websocket_client.rs` — the receive loop of
  `subscribe_to_order_book`, modelled as a pure fold over the list of
  inbound frames.

Machine floats (`f64`) are embedded as the inductive `OKX.F64`: a finite
rational payload or one of the non-finite values NaN, +inf, -inf.  The
only float operations the sources use on prices are `is_finite` and
`partial_cmp`, and both are embedded exactly (`OKX.F64.isFinite`,
`OKX.F64.pcmp`); no float arithmetic occurs anywhere in the modelled code,
so rounding never enters the picture.

JSON text parsing is, following the specification's scope, treated as the
schema-mapping collaborator: payloads are embedded as an abstract JSON
value tree (`OKX.Json`), and the serde-derive schema mapping of the three
payload shapes is embedded as explicit decoders.  A number token carries
the `F64` it denotes after serde_json's text-to-double step (note that
oversized literals such as 1e999 yield infinities in serde_json, so
non-finite prices are reachable from real payload text).
-/

namespace OKX

/-- Embedding of Rust `f64` restricted to the operations the sources use:
a finite value carries its exact rational magnitude; NaN and the two
infinities are explicit constructors. -/
inductive F64 where
  | finite (val : ℚ)
  | nan
  | posInf
  | negInf
deriving DecidableEq, Repr

deriving instance DecidableEq for Except

/-- Embeds `f64::is_finite`. -/
def F64.isFinite : F64 → Bool
  | .finite _ => true
  | _ => false

/-- Three-way comparison on rationals, the total order `f64::partial_cmp`
restricts to on finite doubles. -/
def ratCmp (p q : ℚ) : Ordering :=
  if p < q then .lt else if q < p then .gt else .eq

/-- Embeds `f64::partial_cmp` (IEEE-754 partial order): NaN is incomparable
with everything, the infinities compare as extremes, finite values compare
by magnitude. -/
def F64.pcmp : F64 → F64 → Option Ordering
  | .nan, _ => none
  | _, .nan => none
  | .negInf, .negInf => some .eq
  | .negInf, _ => some .lt
  | _, .negInf => some .gt
  | .posInf, .posInf => some .eq
  | .finite _, .posInf => some .lt
  | .posInf, .finite _ => some .gt
  | .finite p, .finite q => some (ratCmp p q)

/-- IEEE `<=` on doubles as a Boolean (false whenever a NaN is involved);
used only to state sortedness the way the spec reads it. -/
def F64.leb (x y : F64) : Bool :=
  match F64.pcmp x y with
  | some .lt => true
  | some .eq => true
  | _ => false

/-- A price level, the Rust tuple `(f64, f64)` of price and size. -/
abbrev PriceLevel := F64 × F64

/-- The ask comparator of `sort_order_book`:
`a.0.partial_cmp(&b.0).unwrap_or(Ordering::Equal)`. -/
def cmpAsk (a b : PriceLevel) : Ordering :=
  (F64.pcmp a.1 b.1).getD .eq

/-- The bid comparator of `sort_order_book`:
`b.0.partial_cmp(&a.0).unwrap_or(Ordering::Equal)`. -/
def cmpBid (a b : PriceLevel) : Ordering :=
  (F64.pcmp b.1 a.1).getD .eq

/-- `a` may precede `b` under the ask comparator (comparator result is not
`Greater`); Rust's stable `sort_by` orders by exactly this relation. -/
def askLe (a b : PriceLevel) : Bool :=
  match cmpAsk a b with
  | .gt => false
  | _ => true

/-- `a` may precede `b` under the bid comparator. -/
def bidLe (a b : PriceLevel) : Bool :=
  match cmpBid a b with
  | .gt => false
  | _ => true

/-- Insert an element into a list, before the first element it may
precede. -/
def insertSorted (le : α → α → Bool) (a : α) : List α → List α
  | [] => [a]
  | b :: l => if le a b then a :: b :: l else b :: insertSorted le a l

/-- Stable sort by a Boolean relation (insertion sort).  `Vec::sort_by` is
a stable sort, and in the embedded program the sort only ever runs after
validation has established that every price is finite, where the
comparator is a total preorder; on such inputs every stable sort produces
the same list, so this embedding is observationally exact. -/
def sortBy (le : α → α → Bool) : List α → List α
  | [] => []
  | a :: l => insertSorted le a (sortBy le l)

/-- Kind of a serde_json schema-mapping failure (the Rust side carries a
`serde_json::Error` whose message text is diagnostic only; the kind is all
any code inspects). -/
inductive DecErr where
  | invalidType
  | invalidLength
  | missingField
  | duplicateField
deriving DecidableEq, Repr

/-- The error enum `OrderbookError` of `src/models/orderbook.rs`.  The Rust
variants wrap a `serde_json::Error` and a `ParseIntError`; those payloads
are only human-readable diagnostics, embedded here as the schema-decode
error kind (for `JsonParseError`) and dropped (for `InvalidTimestamp`). -/
inductive OrderbookError where
  | jsonParseError (e : DecErr)
  | emptyData
  | invalidPriceData
  | invalidTimestamp
deriving DecidableEq, Repr

/-- Abstract JSON value tree, the output of the (out-of-scope) JSON text
parser.  A number node carries the `F64` the text denotes after
serde_json's text-to-double conversion. -/
inductive Json where
  | null
  | bool (b : Bool)
  | num (x : F64)
  | str (s : String)
  | arr (elems : List Json)
  | obj (fields : List (String × Json))

/-- The `Orderbook` struct: asks, bids and the `u64` timestamp `ts`
(embedded as a natural number; every value the program stores in it comes
from a `u64` parse and is below `2^64`). -/
structure Orderbook where
  asks : List PriceLevel
  bids : List PriceLevel
  ts : Nat
deriving DecidableEq, Repr

/-- The private struct `RawOrderbookData` (first element of the snapshot
envelope's `data` array): asks, bids, and the timestamp still as text. -/
structure RawOrderbookData where
  asks : List PriceLevel
  bids : List PriceLevel
  ts : String
deriving DecidableEq, Repr

/-- The private snapshot envelope struct `OrderbookSnapshotResponse`. -/
structure OrderbookSnapshotResponse where
  code : String
  msg : String
  data : List RawOrderbookData
deriving DecidableEq, Repr

/-- The private delta struct `OrderbookUpdate`. -/
structure OrderbookUpdate where
  asks : List PriceLevel
  bids : List PriceLevel
deriving DecidableEq, Repr

def keyCode : String := "code"
def keyMsg : String := "msg"
def keyData : String := "data"
def keyAsks : String := "asks"
def keyBids : String := "bids"
def keyTs : String := "ts"

/-- Field access of serde-derived struct deserialization: unknown fields
are ignored, a missing required field is an error, a duplicated field is
an error. -/
def getField (fields : List (String × Json)) (name : String) : Except DecErr Json :=
  match fields.filter (fun p => p.1 == name) with
  | [] => .error .missingField
  | [v] => .ok v.2
  | _ :: _ :: _ => .error .duplicateField

/-- serde deserialization of an `f64`: any JSON number is accepted, any
other node kind (in particular a string) is an invalid-type error. -/
def decodeF64 : Json → Except DecErr F64
  | .num x => .ok x
  | _ => .error .invalidType

/-- serde deserialization of a `String`. -/
def decodeString : Json → Except DecErr String
  | .str s => .ok s
  | _ => .error .invalidType

/-- serde deserialization of the tuple `(f64, f64)`: a two-element JSON
array whose elements both deserialize as `f64`. -/
def decodePair : Json → Except DecErr PriceLevel
  | .arr [p, s] =>
    match decodeF64 p with
    | .error e => .error e
    | .ok price =>
      match decodeF64 s with
      | .error e => .error e
      | .ok size => .ok (price, size)
  | .arr _ => .error .invalidLength
  | _ => .error .invalidType

/-- Element-wise decoding of a `Vec<(f64, f64)>` body, failing on the
first bad element. -/
def decodePairList : List Json → Except DecErr (List PriceLevel)
  | [] => .ok []
  | j :: js =>
    match decodePair j with
    | .error e => .error e
    | .ok p =>
      match decodePairList js with
      | .error e => .error e
      | .ok ps => .ok (p :: ps)

/-- serde deserialization of `Vec<(f64, f64)>`. -/
def decodeLevels : Json → Except DecErr (List PriceLevel)
  | .arr js => decodePairList js
  | _ => .error .invalidType

/-- serde deserialization of `RawOrderbookData` from a JSON object.
(serde derive visits the payload's fields in payload order, so when a
payload has several independent defects the reported error can differ
from this left-to-right field scan; which defect is reported is the only
difference, and no claim depends on it.) -/
def decodeRawOrderbookData : Json → Except DecErr RawOrderbookData
  | .obj fields =>
    match getField fields keyAsks with
    | .error e => .error e
    | .ok ja =>
      match decodeLevels ja with
      | .error e => .error e
      | .ok asks =>
        match getField fields keyBids with
        | .error e => .error e
        | .ok jb =>
          match decodeLevels jb with
          | .error e => .error e
          | .ok bids =>
            match getField fields keyTs with
            | .error e => .error e
            | .ok jt =>
              match decodeString jt with
              | .error e => .error e
              | .ok ts => .ok ⟨asks, bids, ts⟩
  | _ => .error .invalidType

/-- Element-wise decoding of the `data` array. -/
def decodeRawList : List Json → Except DecErr (List RawOrderbookData)
  | [] => .ok []
  | j :: js =>
    match decodeRawOrderbookData j with
    | .error e => .error e
    | .ok r =>
      match decodeRawList js with
      | .error e => .error e
      | .ok rs => .ok (r :: rs)

/-- serde deserialization of the snapshot envelope
`OrderbookSnapshotResponse`. -/
def decodeSnapshotResponse : Json → Except DecErr OrderbookSnapshotResponse
  | .obj fields =>
    match getField fields keyCode with
    | .error e => .error e
    | .ok jc =>
      match decodeString jc with
      | .error e => .error e
      | .ok code =>
        match getField fields keyMsg with
        | .error e => .error e
        | .ok jm =>
          match decodeString jm with
          | .error e => .error e
          | .ok msg =>
            match getField fields keyData with
            | .error e => .error e
            | .ok jd =>
              match jd with
              | .arr js =>
                match decodeRawList js with
                | .error e => .error e
                | .ok data => .ok ⟨code, msg, data⟩
              | _ => .error .invalidType
  | _ => .error .invalidType

/-- serde deserialization of the delta struct `OrderbookUpdate`. -/
def decodeUpdate : Json → Except DecErr OrderbookUpdate
  | .obj fields =>
    match getField fields keyAsks with
    | .error e => .error e
    | .ok ja =>
      match decodeLevels ja with
      | .error e => .error e
      | .ok asks =>
        match getField fields keyBids with
        | .error e => .error e
        | .ok jb =>
          match decodeLevels jb with
          | .error e => .error e
          | .ok bids => .ok ⟨asks, bids⟩
  | _ => .error .invalidType

/-- Embeds `str::parse::<u64>`: an optional leading plus sign, then at
least one ASCII digit, with the resulting value required to fit in 64
bits. -/
def parseU64 (s : String) : Option Nat :=
  let cs := match s.data with
    | '+' :: rest => rest
    | cs => cs
  if cs.isEmpty then none
  else if cs.all Char.isDigit then
    let n := cs.foldl (fun acc c => acc * 10 + (c.toNat - 48)) 0
    if n < 18446744073709551616 then some n else none
  else none

/-- Embeds `Orderbook::sort_order_book`: reject any non-finite price in
asks or bids with `InvalidPriceData` before sorting; otherwise sort asks
ascending and bids descending by price, by the two `partial_cmp`-based
comparators. -/
def Orderbook.sort_order_book (ob : Orderbook) : Except OrderbookError Orderbook :=
  if (ob.asks ++ ob.bids).all (fun level => level.1.isFinite) then
    .ok { ob with asks := sortBy askLe ob.asks, bids := sortBy bidLe ob.bids }
  else
    .error .invalidPriceData

/-- Embeds `Orderbook::from_snapshot`: decode the envelope, take the first
`data` element (`EmptyData` if there is none), parse its `ts` text as a
`u64` (`InvalidTimestamp` on failure), then sort/validate. -/
def Orderbook.from_snapshot (j : Json) : Except OrderbookError Orderbook :=
  match decodeSnapshotResponse j with
  | .error e => .error (.jsonParseError e)
  | .ok resp =>
    match resp.data with
    | [] => .error .emptyData
    | raw :: _ =>
      match parseU64 raw.ts with
      | none => .error .invalidTimestamp
      | some ts =>
        Orderbook.sort_order_book { asks := raw.asks, bids := raw.bids, ts := ts }

/-- Embeds `Orderbook::apply_update` as explicit state passing: the first
component of the result is the state `self` holds after the call, the
second the returned `Result`.  On a decode failure the state is untouched;
on a validation failure the state keeps the already-appended, unsorted
data (the source appends with `extend` before calling
`sort_order_book`). -/
def Orderbook.apply_update (ob : Orderbook) (j : Json) :
    Orderbook × Except OrderbookError Unit :=
  match decodeUpdate j with
  | .error e => (ob, .error (.jsonParseError e))
  | .ok upd =>
    match Orderbook.sort_order_book
        { ob with asks := ob.asks ++ upd.asks, bids := ob.bids ++ upd.bids } with
    | .error e =>
      ({ ob with asks := ob.asks ++ upd.asks, bids := ob.bids ++ upd.bids }, .error e)
    | .ok sorted => (sorted, .ok ())

/-- The frame kinds of `tungstenite::protocol::Message`. -/
inductive Frame where
  | text (s : String)
  | binary (bytes : List Nat)
  | ping (bytes : List Nat)
  | pong (bytes : List Nat)
  | close (reason : Option String)
  | raw
deriving DecidableEq, Repr

/-- The error enum `WebSocketError` of `src/client/websocket_client.rs`
(payloads, a transport error and a channel-send error, are diagnostic
only). -/
inductive WebSocketError where
  | connectionError
  | channelSendError
deriving DecidableEq, Repr

/-- Embeds the receive loop of
`OKXWebSocketClient::subscribe_to_order_book` (the part after the
connect and the subscribe send): the inbound stream is the list of items
`read.next()` yields, each either a transport error or a frame; `budget`
models the outbound mpsc channel as the number of sends that still
succeed before the consumer is gone (`none`: the consumer never goes
away).  The result is the list of successfully forwarded text payloads,
in order, and the loop's returned `Result`. -/
def runLoop (budget : Option Nat) :
    List (Except Unit Frame) → List String × Except WebSocketError Unit
  | [] => ([], .ok ())
  | .error _ :: _ => ([], .error .connectionError)
  | .ok (.text s) :: rest =>
    match budget with
    | none =>
      let r := runLoop none rest
      (s :: r.1, r.2)
    | some 0 => ([], .error .channelSendError)
    | some (k + 1) =>
      let r := runLoop (some k) rest
      (s :: r.1, r.2)
  | .ok (.close _) :: _ => ([], .ok ())
  | .ok _ :: rest => runLoop budget rest

/-- Specification-side description of what the loop should forward: the
payloads of the text frames, in receipt order, up to (and not including)
the first close frame. -/
def textsUpToClose : List Frame → List String
  | [] => []
  | .text s :: rest => s :: textsUpToClose rest
  | .close _ :: _ => []
  | _ :: rest => textsUpToClose rest

/-- A concrete book value used by the worked examples: one ask at price
41006.8, size 0.60030921 (the repository's own test snapshot), no bids. -/
def exampleBook : Orderbook :=
  { asks := [(.finite (mkRat 410068 10), .finite (mkRat 60030921 100000000))]
    bids := []
    ts := 1621447077008 }

/-- The snapshot payload encoding `exampleBook` with the (price, size)
pairs as native JSON numbers. -/
def snapNumJson : Json :=
  .obj [(keyCode, .str "0"), (keyMsg, .str ""),
    (keyData, .arr [.obj
      [(keyAsks, .arr [.arr [.num (.finite (mkRat 410068 10)), .num (.finite (mkRat 60030921 100000000))]]),
       (keyBids, .arr []),
       (keyTs, .str "1621447077008")]])]

/-- The snapshot payload encoding the same book value with the
(price, size) pairs as decimal strings, the representation the feed's
string variant uses. -/
def snapStrJson : Json :=
  .obj [(keyCode, .str "0"), (keyMsg, .str ""),
    (keyData, .arr [.obj
      [(keyAsks, .arr [.arr [.str "41006.8", .str "0.60030921"]]),
       (keyBids, .arr []),
       (keyTs, .str "1621447077008")]])]

/-- A snapshot payload whose `data` array is empty. -/
def snapEmptyDataJson : Json :=
  .obj [(keyCode, .str "0"), (keyMsg, .str ""), (keyData, .arr [])]

/-- A snapshot payload whose `ts` text is not an unsigned integer. -/
def snapBadTsJson : Json :=
  .obj [(keyCode, .str "0"), (keyMsg, .str ""),
    (keyData, .arr [.obj
      [(keyAsks, .arr []), (keyBids, .arr []), (keyTs, .str "16x21")]])]

/-- A snapshot payload with an infinite ask price (reachable from real
payload text: serde_json turns an oversized literal such as 1e999 into
`f64::INFINITY`). -/
def snapInfPriceJson : Json :=
  .obj [(keyCode, .str "0"), (keyMsg, .str ""),
    (keyData, .arr [.obj
      [(keyAsks, .arr [.arr [.num .posInf, .num (.finite (1 : ℚ))]]),
       (keyBids, .arr []),
       (keyTs, .str "1621447077008")]])]

/-- A snapshot payload whose prices are all finite but whose single ask
size is infinite. -/
def snapInfSizeJson : Json :=
  .obj [(keyCode, .str "0"), (keyMsg, .str ""),
    (keyData, .arr [.obj
      [(keyAsks, .arr [.arr [.num (.finite (41007 : ℚ)), .num .posInf]]),
       (keyBids, .arr []),
       (keyTs, .str "1621447077008")]])]

/-- The repository test's delta payload: one ask `[41007.0, 0.2]`, no
bids. -/
def deltaJson : Json :=
  .obj [(keyAsks, .arr [.arr [.num (.finite (mkRat 41007 1)), .num (.finite (mkRat 2 10))]]),
        (keyBids, .arr [])]

/-- A delta payload carrying a NaN ask price. -/
def deltaNanJson : Json :=
  .obj [(keyAsks, .arr [.arr [.num .nan, .num (.finite (1 : ℚ))]]),
        (keyBids, .arr [])]

/-- The book the repository's own test expects after applying `deltaJson`
to `exampleBook`: both asks, in ascending price order. -/
def exampleBookAfter : Orderbook :=
  { asks := [(.finite (mkRat 410068 10), .finite (mkRat 60030921 100000000)),
             (.finite (mkRat 41007 1), .finite (mkRat 2 10))]
    bids := []
    ts := 1621447077008 }

/-- Asks sorted non-descending by price, read with IEEE `<=` on the price
doubles. -/
def asksSorted (l : List PriceLevel) : Prop :=
  l.Pairwise (fun a b => F64.leb a.1 b.1 = true)

/-- Bids sorted non-ascending by price, read with IEEE `<=` on the price
doubles. -/
def bidsSorted (l : List PriceLevel) : Prop :=
  l.Pairwise (fun a b => F64.leb b.1 a.1 = true)

theorem insertSorted_perm (le : α → α → Bool) (a : α) :
    ∀ l : List α, (insertSorted le a l).Perm (a :: l)
  | [] => List.Perm.refl _
  | b :: l => by
    unfold insertSorted
    split
    · exact List.Perm.refl _
    · exact ((insertSorted_perm le a l).cons b).trans (List.Perm.swap a b l)

theorem sortBy_perm (le : α → α → Bool) : ∀ l : List α, (sortBy le l).Perm l
  | [] => List.Perm.refl _
  | a :: l => (insertSorted_perm le a (sortBy le l)).trans ((sortBy_perm le l).cons a)

theorem mem_insertSorted {le : α → α → Bool} {a x : α} {l : List α}
    (h : x ∈ insertSorted le a l) : x = a ∨ x ∈ l := by
  have := (insertSorted_perm le a l).mem_iff.mp h
  simpa using this

theorem mem_sortBy {le : α → α → Bool} {x : α} {l : List α}
    (h : x ∈ sortBy le l) : x ∈ l :=
  (sortBy_perm le l).mem_iff.mp h

/-- Sortedness of `insertSorted`, with transitivity and totality of the
relation assumed only on elements satisfying `P` (in the program: levels
with finite prices). -/
theorem insertSorted_sorted {le : α → α → Bool} {P : α → Prop}
    (htr : ∀ x y z, P x → P y → P z → le x y = true → le y z = true → le x z = true)
    (hto : ∀ x y, P x → P y → le x y = true ∨ le y x = true)
    {a : α} (ha : P a) :
    ∀ {l : List α}, (∀ x ∈ l, P x) → l.Pairwise (fun x y => le x y = true) →
      (insertSorted le a l).Pairwise (fun x y => le x y = true) := by
  intro l
  induction l with
  | nil => intro _ _; simp [insertSorted]
  | cons b l ih =>
    intro hP hs
    have hPb : P b := hP b (by simp)
    have hPl : ∀ x ∈ l, P x := fun x hx => hP x (by simp [hx])
    rw [List.pairwise_cons] at hs
    unfold insertSorted
    split
    · rename_i hab
      refine List.pairwise_cons.mpr ⟨?_, List.pairwise_cons.mpr ⟨hs.1, hs.2⟩⟩
      intro x hx
      rcases List.mem_cons.mp hx with rfl | hx
      · exact hab
      · exact htr a b x ha hPb (hPl x hx) hab (hs.1 x hx)
    · rename_i hab
      have hba : le b a = true := by
        rcases hto a b ha hPb with h | h
        · exact absurd h hab
        · exact h
      refine List.pairwise_cons.mpr ⟨?_, ih hPl hs.2⟩
      intro x hx
      rcases mem_insertSorted hx with rfl | hx
      · exact hba
      · exact hs.1 x hx

/-- Sortedness of `sortBy` under `P`-restricted transitivity and
totality. -/
theorem sortBy_sorted {le : α → α → Bool} {P : α → Prop}
    (htr : ∀ x y z, P x → P y → P z → le x y = true → le y z = true → le x z = true)
    (hto : ∀ x y, P x → P y → le x y = true ∨ le y x = true) :
    ∀ {l : List α}, (∀ x ∈ l, P x) →
      (sortBy le l).Pairwise (fun x y => le x y = true) := by
  intro l
  induction l with
  | nil => intro _; simp [sortBy]
  | cons a l ih =>
    intro hP
    have hPa : P a := hP a (by simp)
    have hPl : ∀ x ∈ l, P x := fun x hx => hP x (by simp [hx])
    exact insertSorted_sorted htr hto hPa
      (fun x hx => hPl x (mem_sortBy hx)) (ih hPl)

theorem pairwise_strengthen {R S : α → α → Prop} :
    ∀ {l : List α}, (∀ a ∈ l, ∀ b ∈ l, R a b → S a b) → l.Pairwise R → l.Pairwise S := by
  intro l
  induction l with
  | nil => intro _ _; exact List.Pairwise.nil
  | cons a l ih =>
    intro H h
    rw [List.pairwise_cons] at h ⊢
    refine ⟨fun b hb => H a (by simp) b (by simp [hb]) (h.1 b hb), ?_⟩
    exact ih (fun x hx y hy => H x (by simp [hx]) y (by simp [hy])) h.2

theorem isFinite_iff {x : F64} : x.isFinite = true ↔ ∃ p, x = .finite p := by
  cases x <;> simp [F64.isFinite]

theorem ratCmp_eq_gt {p q : ℚ} : ratCmp p q = .gt ↔ q < p := by
  unfold ratCmp
  rcases lt_trichotomy p q with h | h | h
  · rw [if_pos h]
    simp [lt_asymm h]
  · subst h
    rw [if_neg (lt_irrefl p), if_neg (lt_irrefl p)]
    simp
  · rw [if_neg (asymm h), if_pos h]
    simp [h]

theorem askLe_iff {x y : PriceLevel} {p q : ℚ}
    (hx : x.1 = .finite p) (hy : y.1 = .finite q) : askLe x y = true ↔ p ≤ q := by
  have hc : cmpAsk x y = ratCmp p q := by
    unfold cmpAsk
    rw [hx, hy]
    rfl
  unfold askLe
  rw [hc]
  cases h : ratCmp p q <;> simp_all [ratCmp_eq_gt]
  · exact le_of_lt (by
      by_contra hle
      rcases lt_trichotomy p q with ht | ht | ht
      · exact hle ht
      · simp [ratCmp, ht, lt_irrefl] at h
      · simp [ratCmp, asymm ht, ht] at h)
  · by_contra hle
    rcases lt_trichotomy p q with ht | ht | ht
    · simp [ratCmp, ht] at h
    · exact hle (le_of_eq ht)
    · simp [ratCmp, asymm ht, ht] at h

theorem bidLe_iff {x y : PriceLevel} {p q : ℚ}
    (hx : x.1 = .finite p) (hy : y.1 = .finite q) : bidLe x y = true ↔ q ≤ p := by
  have hc : cmpBid x y = ratCmp q p := by
    unfold cmpBid
    rw [hx, hy]
    rfl
  unfold bidLe
  rw [hc]
  cases h : ratCmp q p <;> simp_all [ratCmp_eq_gt]
  · exact le_of_lt (by
      by_contra hle
      rcases lt_trichotomy q p with ht | ht | ht
      · exact hle ht
      · simp [ratCmp, ht, lt_irrefl] at h
      · simp [ratCmp, asymm ht, ht] at h)
  · by_contra hle
    rcases lt_trichotomy q p with ht | ht | ht
    · simp [ratCmp, ht] at h
    · exact hle (le_of_eq ht)
    · simp [ratCmp, asymm ht, ht] at h

theorem leb_iff {p q : ℚ} : F64.leb (.finite p) (.finite q) = true ↔ p ≤ q := by
  have hc : F64.pcmp (.finite p) (.finite q) = some (ratCmp p q) := rfl
  unfold F64.leb
  rw [hc]
  cases h : ratCmp p q <;> simp_all [ratCmp_eq_gt]
  · exact le_of_lt (by
      by_contra hle
      rcases lt_trichotomy p q with ht | ht | ht
      · exact hle ht
      · simp [ratCmp, ht, lt_irrefl] at h
      · simp [ratCmp, asymm ht, ht] at h)
  · by_contra hle
    rcases lt_trichotomy p q with ht | ht | ht
    · simp [ratCmp, ht] at h
    · exact hle (le_of_eq ht)
    · simp [ratCmp, asymm ht, ht] at h

/-- The level predicate under which the two comparators are total
preorders: the price is finite. -/
def FinitePrice (x : PriceLevel) : Prop := x.1.isFinite = true

theorem askLe_trans : ∀ x y z : PriceLevel, FinitePrice x → FinitePrice y → FinitePrice z →
    askLe x y = true → askLe y z = true → askLe x z = true := by
  intro x y z hx hy hz hxy hyz
  obtain ⟨p, hp⟩ := isFinite_iff.mp hx
  obtain ⟨q, hq⟩ := isFinite_iff.mp hy
  obtain ⟨r, hr⟩ := isFinite_iff.mp hz
  exact (askLe_iff hp hr).mpr
    (le_trans ((askLe_iff hp hq).mp hxy) ((askLe_iff hq hr).mp hyz))

theorem askLe_total : ∀ x y : PriceLevel, FinitePrice x → FinitePrice y →
    askLe x y = true ∨ askLe y x = true := by
  intro x y hx hy
  obtain ⟨p, hp⟩ := isFinite_iff.mp hx
  obtain ⟨q, hq⟩ := isFinite_iff.mp hy
  rcases le_total p q with h | h
  · exact Or.inl ((askLe_iff hp hq).mpr h)
  · exact Or.inr ((askLe_iff hq hp).mpr h)

theorem bidLe_trans : ∀ x y z : PriceLevel, FinitePrice x → FinitePrice y → FinitePrice z →
    bidLe x y = true → bidLe y z = true → bidLe x z = true := by
  intro x y z hx hy hz hxy hyz
  obtain ⟨p, hp⟩ := isFinite_iff.mp hx
  obtain ⟨q, hq⟩ := isFinite_iff.mp hy
  obtain ⟨r, hr⟩ := isFinite_iff.mp hz
  exact (bidLe_iff hp hr).mpr
    (le_trans ((bidLe_iff hq hr).mp hyz) ((bidLe_iff hp hq).mp hxy))

theorem bidLe_total : ∀ x y : PriceLevel, FinitePrice x → FinitePrice y →
    bidLe x y = true ∨ bidLe y x = true := by
  intro x y hx hy
  obtain ⟨p, hp⟩ := isFinite_iff.mp hx
  obtain ⟨q, hq⟩ := isFinite_iff.mp hy
  rcases le_total q p with h | h
  · exact Or.inl ((bidLe_iff hp hq).mpr h)
  · exact Or.inr ((bidLe_iff hq hp).mpr h)

/-- If every price of the book is finite, `sort_order_book` succeeds and
returns the two lists sorted by the respective comparators, with the
timestamp untouched. -/
theorem sort_order_book_ok_intro {ob : Orderbook}
    (h : ∀ x ∈ ob.asks ++ ob.bids, x.1.isFinite = true) :
    ob.sort_order_book =
      .ok ⟨sortBy askLe ob.asks, sortBy bidLe ob.bids, ob.ts⟩ := by
  unfold Orderbook.sort_order_book
  rw [if_pos (List.all_eq_true.mpr h)]

/-- If some price of the book is non-finite, `sort_order_book` fails with
`InvalidPriceData` (and, the error branch being taken before the sorts,
performs no sort). -/
theorem sort_order_book_err_intro {ob : Orderbook}
    (h : ∃ x ∈ ob.asks ++ ob.bids, x.1.isFinite = false) :
    ob.sort_order_book = .error .invalidPriceData := by
  unfold Orderbook.sort_order_book
  rw [if_neg]
  intro hall
  obtain ⟨x, hx, hfx⟩ := h
  have := List.all_eq_true.mp hall x hx
  rw [hfx] at this
  exact Bool.false_ne_true this

/-- Inversion of a successful `sort_order_book` call. -/
theorem sort_order_book_ok_elim {ob ob' : Orderbook}
    (h : ob.sort_order_book = .ok ob') :
    (∀ x ∈ ob.asks ++ ob.bids, x.1.isFinite = true) ∧
      ob' = ⟨sortBy askLe ob.asks, sortBy bidLe ob.bids, ob.ts⟩ := by
  unfold Orderbook.sort_order_book at h
  split at h
  · rename_i hall
    exact ⟨List.all_eq_true.mp hall, (Except.ok.injEq _ _ |>.mp h).symm⟩
  · exact absurd h (by simp)

/-- Inversion of a successful `from_snapshot` call. -/
theorem from_snapshot_ok_elim {j : Json} {ob : Orderbook}
    (h : Orderbook.from_snapshot j = .ok ob) :
    ∃ resp raw rest ts, decodeSnapshotResponse j = .ok resp ∧
      resp.data = raw :: rest ∧ parseU64 raw.ts = some ts ∧
      Orderbook.sort_order_book ⟨raw.asks, raw.bids, ts⟩ = .ok ob := by
  unfold Orderbook.from_snapshot at h
  split at h
  · exact absurd h (by simp)
  · rename_i resp hresp
    split at h
    · exact absurd h (by simp)
    · rename_i raw rest hdata
      split at h
      · exact absurd h (by simp)
      · rename_i ts hts
        exact ⟨resp, raw, rest, ts, hresp, hdata, hts, h⟩

/-- Inversion of a successful `apply_update` call. -/
theorem apply_update_ok_elim {ob ob' : Orderbook} {j : Json}
    (h : ob.apply_update j = (ob', .ok ())) :
    ∃ upd, decodeUpdate j = .ok upd ∧
      Orderbook.sort_order_book ⟨ob.asks ++ upd.asks, ob.bids ++ upd.bids, ob.ts⟩ = .ok ob' := by
  unfold Orderbook.apply_update at h
  split at h
  · rw [Prod.mk.injEq] at h
    exact absurd h.2 (by simp)
  · rename_i upd hupd
    split at h <;> rw [Prod.mk.injEq] at h
    · exact absurd h.2 (by simp)
    · rename_i sorted hsorted
      exact ⟨upd, hupd, h.1 ▸ hsorted⟩

/-- A sorted ask list (with all prices finite) is sorted non-descending
by price in the IEEE sense. -/
theorem asksSorted_of_sortBy {l : List PriceLevel}
    (hfin : ∀ x ∈ l, x.1.isFinite = true) : asksSorted (sortBy askLe l) := by
  refine pairwise_strengthen ?_ (sortBy_sorted askLe_trans askLe_total hfin)
  intro a ha b hb hab
  obtain ⟨p, hp⟩ := isFinite_iff.mp (hfin a (mem_sortBy ha))
  obtain ⟨q, hq⟩ := isFinite_iff.mp (hfin b (mem_sortBy hb))
  rw [hp, hq]
  exact leb_iff.mpr ((askLe_iff hp hq).mp hab)

/-- A sorted bid list (with all prices finite) is sorted non-ascending by
price in the IEEE sense. -/
theorem bidsSorted_of_sortBy {l : List PriceLevel}
    (hfin : ∀ x ∈ l, x.1.isFinite = true) : bidsSorted (sortBy bidLe l) := by
  refine pairwise_strengthen ?_ (sortBy_sorted bidLe_trans bidLe_total hfin)
  intro a ha b hb hab
  obtain ⟨p, hp⟩ := isFinite_iff.mp (hfin a (mem_sortBy ha))
  obtain ⟨q, hq⟩ := isFinite_iff.mp (hfin b (mem_sortBy hb))
  rw [hp, hq]
  exact leb_iff.mpr ((bidLe_iff hp hq).mp hab)

end OKX

open OKX

/-- C1 (counterexample): the claim that `from_snapshot` accepts the
(price, size) pairs both as native numbers and as decimal strings is
false on the code.  For the book value `exampleBook`, the payload with
numeric pairs succeeds, but the payload encoding the very same book with
string pairs is rejected by the schema mapping (`Vec<(f64, f64)>` does
not deserialize from strings), so `from_snapshot` returns a JSON parse
error rather than an equal `BookState`. -/
theorem c1_dual_schema_counterexample :
    Orderbook.from_snapshot snapNumJson = .ok exampleBook ∧
      Orderbook.from_snapshot snapStrJson = .error (.jsonParseError .invalidType) :=
  ⟨by decide, by decide⟩

/-- C1 (amended): `from_snapshot` accepts the (price, size) pairs only as
native JSON numbers.  A pair encoded as decimal strings fails the schema
mapping, any schema-mapping failure is surfaced by `from_snapshot` as the
wrapped JSON parse error with no `BookState` produced, and on the worked
example the numeric payload succeeds while the string payload fails. -/
theorem c1_numeric_pairs_only :
    (∀ s1 s2 : String, decodePair (.arr [.str s1, .str s2]) = .error .invalidType) ∧
      (∀ (j : Json) (e : DecErr), decodeSnapshotResponse j = .error e →
        Orderbook.from_snapshot j = .error (.jsonParseError e)) ∧
      Orderbook.from_snapshot snapNumJson = .ok exampleBook ∧
      Orderbook.from_snapshot snapStrJson = .error (.jsonParseError .invalidType) := by
  refine ⟨fun s1 s2 => rfl, fun j e h => ?_, by decide, by decide⟩
  unfold Orderbook.from_snapshot
  rw [h]

/-- C1 (witness): the amended theorem applied to the string-encoded
payload, whose envelope decode fails with an invalid-type error. -/
theorem c1_numeric_pairs_only_witness :
    decodeSnapshotResponse snapStrJson = .error .invalidType ∧
      Orderbook.from_snapshot snapStrJson = .error (.jsonParseError .invalidType) :=
  ⟨by decide, c1_numeric_pairs_only.2.1 snapStrJson .invalidType (by decide)⟩

/-- C2: for every book state and every well-formed delta payload that
contains a non-finite price, `apply_update` returns `InvalidPriceData`,
and the state it leaves behind already holds the delta's asks and bids
appended, unsorted, to the previous sequences — no rollback. -/
theorem c2_no_rollback_on_invalid_price (ob : Orderbook) (j : Json)
    (upd : OrderbookUpdate) (hdec : decodeUpdate j = .ok upd)
    (hbad : ∃ x ∈ upd.asks ++ upd.bids, x.1.isFinite = false) :
    ob.apply_update j =
      (⟨ob.asks ++ upd.asks, ob.bids ++ upd.bids, ob.ts⟩,
        .error .invalidPriceData) := by
  have hserr : Orderbook.sort_order_book
      ⟨ob.asks ++ upd.asks, ob.bids ++ upd.bids, ob.ts⟩ =
        .error .invalidPriceData := by
    apply sort_order_book_err_intro
    obtain ⟨x, hx, hfx⟩ := hbad
    rcases List.mem_append.mp hx with hx | hx
    · exact ⟨x, List.mem_append_left _ (List.mem_append_right _ hx), hfx⟩
    · exact ⟨x, List.mem_append_right _ (List.mem_append_right _ hx), hfx⟩
  unfold Orderbook.apply_update
  rw [hdec]
  simp only [hserr]

/-- C2 (witness): applying the NaN-price delta to the example book fails
with `InvalidPriceData` while the NaN level is left appended to the
asks. -/
theorem c2_no_rollback_witness :
    exampleBook.apply_update deltaNanJson =
      (⟨exampleBook.asks ++ [(.nan, .finite 1)], exampleBook.bids ++ [],
        exampleBook.ts⟩, .error .invalidPriceData) :=
  c2_no_rollback_on_invalid_price exampleBook deltaNanJson
    ⟨[(.nan, .finite 1)], []⟩ (by decide) (by decide)

/-- C3: a successful `apply_update` appends rather than merges: the new
asks are a permutation of the old asks plus the delta's asks (so lengths
add exactly and duplicate prices coexist), likewise for bids; on the
spec's worked example, the delta ask `[41007.0, 0.2]` lands after the
existing `[41006.8, 0.6...]` ask, and applying the same delta a second
time duplicates the 41007 level instead of replacing it. -/
theorem c3_append_not_merge :
    (∀ (ob : Orderbook) (j : Json) (upd : OrderbookUpdate) (ob' : Orderbook),
      decodeUpdate j = .ok upd → ob.apply_update j = (ob', .ok ()) →
        ob'.asks.Perm (ob.asks ++ upd.asks) ∧ ob'.bids.Perm (ob.bids ++ upd.bids) ∧
        ob'.asks.length = ob.asks.length + upd.asks.length ∧
        ob'.bids.length = ob.bids.length + upd.bids.length) ∧
      exampleBook.apply_update deltaJson = (exampleBookAfter, .ok ()) ∧
      (exampleBookAfter.apply_update deltaJson).1.asks =
        [(.finite (mkRat 410068 10), .finite (mkRat 60030921 100000000)),
         (.finite (mkRat 41007 1), .finite (mkRat 2 10)),
         (.finite (mkRat 41007 1), .finite (mkRat 2 10))] := by
  refine ⟨?_, by decide, by decide⟩
  intro ob j upd ob' hdec h
  obtain ⟨upd2, hdec2, hsort⟩ := apply_update_ok_elim h
  rw [hdec] at hdec2
  obtain rfl : upd = upd2 := Except.ok.inj hdec2
  obtain ⟨hfin, rfl⟩ := sort_order_book_ok_elim hsort
  refine ⟨sortBy_perm askLe _, sortBy_perm bidLe _, ?_, ?_⟩
  · rw [(sortBy_perm askLe _).length_eq, List.length_append]
  · rw [(sortBy_perm bidLe _).length_eq, List.length_append]

/-- C3 (witness): the general append property instantiated on the worked
example. -/
theorem c3_append_not_merge_witness :
    exampleBookAfter.asks.Perm
      (exampleBook.asks ++ [(.finite (mkRat 41007 1), .finite (mkRat 2 10))]) ∧
      exampleBookAfter.asks.length = exampleBook.asks.length + 1 :=
  have h := c3_append_not_merge.1 exampleBook deltaJson
    ⟨[(.finite (mkRat 41007 1), .finite (mkRat 2 10))], []⟩ exampleBookAfter
    (by decide) (by decide)
  ⟨h.1, h.2.2.1⟩

/-- C4: after every successful `from_snapshot` and every successful
`apply_update`, the asks are sorted non-descending and the bids
non-ascending by price. -/
theorem c4_sorted_invariant :
    (∀ (j : Json) (ob : Orderbook), Orderbook.from_snapshot j = .ok ob →
        asksSorted ob.asks ∧ bidsSorted ob.bids) ∧
      (∀ (ob : Orderbook) (j : Json) (ob' : Orderbook),
        ob.apply_update j = (ob', .ok ()) →
          asksSorted ob'.asks ∧ bidsSorted ob'.bids) := by
  constructor
  · intro j ob h
    obtain ⟨resp, raw, rest, ts, _, _, _, hsort⟩ := from_snapshot_ok_elim h
    obtain ⟨hfin, rfl⟩ := sort_order_book_ok_elim hsort
    exact ⟨asksSorted_of_sortBy (fun x hx => hfin x (List.mem_append_left _ hx)),
      bidsSorted_of_sortBy (fun x hx => hfin x (List.mem_append_right _ hx))⟩
  · intro ob j ob' h
    obtain ⟨upd, _, hsort⟩ := apply_update_ok_elim h
    obtain ⟨hfin, rfl⟩ := sort_order_book_ok_elim hsort
    exact ⟨asksSorted_of_sortBy (fun x hx => hfin x (List.mem_append_left _ hx)),
      bidsSorted_of_sortBy (fun x hx => hfin x (List.mem_append_right _ hx))⟩

/-- C4 (witness): the invariant instantiated on the book produced from
the numeric example snapshot. -/
theorem c4_sorted_invariant_witness :
    asksSorted exampleBook.asks ∧ bidsSorted exampleBook.bids :=
  c4_sorted_invariant.1 snapNumJson exampleBook (by decide)

/-- C5: a non-finite price anywhere in asks or bids makes the
sort/validate step fail with `InvalidPriceData` (the error branch is
taken before any sort), and a snapshot payload that reaches that step
with such a price makes `from_snapshot` return that error and produce no
`BookState`. -/
theorem c5_invalid_price_atomic :
    (∀ ob : Orderbook, (∃ x ∈ ob.asks ++ ob.bids, x.1.isFinite = false) →
        ob.sort_order_book = .error .invalidPriceData) ∧
      (∀ (j : Json) (resp : OrderbookSnapshotResponse) (raw : RawOrderbookData)
        (rest : List RawOrderbookData) (n : Nat),
        decodeSnapshotResponse j = .ok resp → resp.data = raw :: rest →
        parseU64 raw.ts = some n →
        (∃ x ∈ raw.asks ++ raw.bids, x.1.isFinite = false) →
        Orderbook.from_snapshot j = .error .invalidPriceData) := by
  refine ⟨fun ob h => sort_order_book_err_intro h, ?_⟩
  intro j resp raw rest n hresp hdata hts hbad
  unfold Orderbook.from_snapshot
  rw [hresp]
  simp only [hdata, hts]
  exact sort_order_book_err_intro hbad

/-- C5 (witness): the snapshot payload with an infinite ask price fails
with `InvalidPriceData`. -/
theorem c5_invalid_price_atomic_witness :
    Orderbook.from_snapshot snapInfPriceJson = .error .invalidPriceData :=
  c5_invalid_price_atomic.2 snapInfPriceJson
    ⟨"0", "", [⟨[(.posInf, .finite 1)], [], "1621447077008"⟩]⟩
    ⟨[(.posInf, .finite 1)], [], "1621447077008"⟩ [] 1621447077008
    (by decide) (by decide) (by decide) (by decide)

/-- C6: a snapshot payload with an empty `data` sequence fails with
`EmptyData`, and one whose first result object's `ts` text does not parse
as an unsigned integer fails with `InvalidTimestamp`; in both cases no
`BookState` is produced. -/
theorem c6_empty_and_bad_timestamp :
    (∀ (j : Json) (resp : OrderbookSnapshotResponse),
        decodeSnapshotResponse j = .ok resp → resp.data = [] →
          Orderbook.from_snapshot j = .error .emptyData) ∧
      (∀ (j : Json) (resp : OrderbookSnapshotResponse) (raw : RawOrderbookData)
        (rest : List RawOrderbookData),
        decodeSnapshotResponse j = .ok resp → resp.data = raw :: rest →
        parseU64 raw.ts = none →
          Orderbook.from_snapshot j = .error .invalidTimestamp) := by
  constructor
  · intro j resp hresp hdata
    unfold Orderbook.from_snapshot
    rw [hresp]
    simp only [hdata]
  · intro j resp raw rest hresp hdata hts
    unfold Orderbook.from_snapshot
    rw [hresp]
    simp only [hdata, hts]

/-- C6 (witness): the theorem applied to the concrete empty-data payload
and the concrete non-numeric-timestamp payload. -/
theorem c6_empty_and_bad_timestamp_witness :
    Orderbook.from_snapshot snapEmptyDataJson = .error .emptyData ∧
      Orderbook.from_snapshot snapBadTsJson = .error .invalidTimestamp :=
  ⟨c6_empty_and_bad_timestamp.1 snapEmptyDataJson ⟨"0", "", []⟩ (by decide) (by decide),
   c6_empty_and_bad_timestamp.2 snapBadTsJson ⟨"0", "", [⟨[], [], "16x21"⟩]⟩
     ⟨[], [], "16x21"⟩ [] (by decide) (by decide) (by decide)⟩

/-- C7: with the consumer alive, the receive loop forwards exactly the
text frames, verbatim and in receipt order, up to the first close frame
(other frame kinds are skipped without terminating the loop) and ends
with a success outcome; if the consumer goes away after `k` receives and
more than `k` text frames precede any close frame, the loop forwards the
first `k` texts and ends with `ChannelSendError`. -/
theorem c7_stream_forwarding :
    (∀ frames : List Frame,
        runLoop none (frames.map .ok) = (textsUpToClose frames, .ok ())) ∧
      (∀ (frames : List Frame) (k : Nat), k < (textsUpToClose frames).length →
        runLoop (some k) (frames.map .ok) =
          ((textsUpToClose frames).take k, .error .channelSendError)) := by
  constructor
  · intro frames
    induction frames with
    | nil => rfl
    | cons f rest ih => cases f <;> simp [runLoop, textsUpToClose, ih]
  · intro frames
    induction frames with
    | nil => intro k hk; simp [textsUpToClose] at hk
    | cons f rest ih =>
      intro k hk
      cases f with
      | text s =>
        cases k with
        | zero => simp [runLoop]
        | succ k =>
          rw [textsUpToClose] at hk
          rw [List.length_cons, Nat.succ_lt_succ_iff] at hk
          simp [runLoop, textsUpToClose, ih k hk]
      | close reason => simp [textsUpToClose] at hk
      | binary b => exact ih k hk
      | ping b => exact ih k hk
      | pong b => exact ih k hk
      | raw => exact ih k hk

/-- C7 (witness): a concrete run in which the consumer disappears after
one receive while two text frames arrive. -/
theorem c7_stream_forwarding_witness :
    runLoop (some 1) ([Frame.text "a", Frame.ping [], Frame.text "b"].map .ok) =
      (["a"], .error .channelSendError) :=
  c7_stream_forwarding.2 [Frame.text "a", Frame.ping [], Frame.text "b"] 1 (by decide)

/-- C8: `apply_update` never touches the timestamp, whether it succeeds
or fails: the state it leaves behind always carries the caller's previous
`ts`. -/
theorem c8_timestamp_preserved (ob : Orderbook) (j : Json) :
    ((ob.apply_update j).1).ts = ob.ts := by
  unfold Orderbook.apply_update
  rcases hdec : decodeUpdate j with e | upd
  · rfl
  · rcases hsort : Orderbook.sort_order_book
        ⟨ob.asks ++ upd.asks, ob.bids ++ upd.bids, ob.ts⟩ with e | sorted
    · simp only [hsort]
    · simp only [hsort]
      rw [(sort_order_book_ok_elim hsort).2]

/-- C9: a delta payload that fails the schema mapping leaves the book
completely unchanged — the parse happens before any append, so the
parse-failure branch is atomic. -/
theorem c9_parse_failure_atomic (ob : Orderbook) (j : Json) (e : DecErr)
    (h : decodeUpdate j = .error e) :
    ob.apply_update j = (ob, .error (.jsonParseError e)) := by
  unfold Orderbook.apply_update
  rw [h]

/-- C9 (witness): a null payload fails the delta schema mapping and
leaves the example book untouched. -/
theorem c9_parse_failure_atomic_witness :
    exampleBook.apply_update .null = (exampleBook, .error (.jsonParseError .invalidType)) :=
  c9_parse_failure_atomic exampleBook .null .invalidType (by decide)

/-- C10: the sort/validate step inspects only prices: when every price is
finite it succeeds no matter what the sizes are, so a book containing a
non-finite size can be produced — concretely, a snapshot whose only ask
has an infinite size is accepted and the infinite size is stored. -/
theorem c10_sizes_unvalidated :
    (∀ ob : Orderbook, (∀ x ∈ ob.asks ++ ob.bids, x.1.isFinite = true) →
        ob.sort_order_book = .ok ⟨sortBy askLe ob.asks, sortBy bidLe ob.bids, ob.ts⟩) ∧
      Orderbook.from_snapshot snapInfSizeJson =
        .ok ⟨[(.finite 41007, .posInf)], [], 1621447077008⟩ :=
  ⟨fun ob h => sort_order_book_ok_intro h, by decide⟩

/-- C10 (witness): a book whose single ask has a finite price but a NaN
size passes the sort/validate step unchanged. -/
theorem c10_sizes_unvalidated_witness :
    Orderbook.sort_order_book ⟨[(.finite 1, .nan)], [], 5⟩ =
      .ok ⟨[(.finite 1, .nan)], [], 5⟩ :=
  c10_sizes_unvalidated.1 ⟨[(.finite 1, .nan)], [], 5⟩ (by decide)
